import Mathlib

/-!
Shallow embedding of the particle-burst core of `src/app/page.tsx`.

JavaScript floating-point numbers are modelled as real numbers; the stream of
values produced by successive calls to `Math.random()` (each in `[0,1)`) is
modelled as a function `u : ℕ → ℝ`, consumed at fixed indices in the order the
source consumes them. `Math.pow(drag, dt * 60)` is modelled with `Real.rpow`,
`Math.PI` with `Real.pi`, and `Math.cos` / `Math.sin` with `Real.cos` /
`Real.sin`. Canvas draw calls emitted by the frame callback are reified as a
`DrawOp` value per drawn particle.
-/

namespace Peakcast

/-- The `BurstKind` union type of the source: `"none" | "game" | "media"`. -/
inductive BurstKind where
  | none
  | game
  | media
deriving DecidableEq

/-- The `Particle` record of the source. -/
@[ext]
structure Particle where
  x : ℝ
  y : ℝ
  vx : ℝ
  vy : ℝ
  life : ℝ
  size : ℝ
  rot : ℝ
  vr : ℝ
  hollow : Bool

/-- `clamp(n, a, b) = Math.max(a, Math.min(b, n))`. -/
noncomputable def clamp (n a b : ℝ) : ℝ := max a (min b n)

/-- `rand(min, max) = Math.random() * (max - min) + min`, with the
`Math.random()` result passed in as `u`. -/
noncomputable def rand (u lo hi : ℝ) : ℝ := u * (hi - lo) + lo

/-- `const count = kind === "game" ? 55 : 45;` in `makeParticles`. -/
def count (kind : BurstKind) : ℕ := if kind = BurstKind.game then 55 else 45

/-- Number of `Math.random()` calls one loop iteration of `makeParticles`
consumes: angle, speed, two jitters, size, rot, vr, plus the hollow draw for
the `"media"` kind only. -/
def drawsPer (kind : BurstKind) : ℕ := if kind = BurstKind.media then 8 else 7

/-- One iteration of the loop body of `makeParticles`, with `u` the
`Math.random()` stream and `base` the index of the first value this
iteration consumes. -/
noncomputable def mkParticle (kind : BurstKind) (x y : ℝ) (u : ℕ → ℝ)
    (base : ℕ) : Particle :=
  let angle := rand (u base) (-Real.pi * 0.9) (-Real.pi * 0.1)
  let speed := if kind = BurstKind.game then rand (u (base + 1)) 140 360
    else rand (u (base + 1)) 110 280
  let vx := Real.cos angle * speed + rand (u (base + 2)) (-60) 60
  let vy := Real.sin angle * speed + rand (u (base + 3)) (-40) 40
  { x := x
    y := y
    vx := vx
    vy := vy
    life := 1
    size := if kind = BurstKind.game then rand (u (base + 4)) 4 10
      else rand (u (base + 4)) 3 9
    rot := rand (u (base + 5)) 0 (Real.pi * 2)
    vr := rand (u (base + 6)) (-6) 6
    hollow := if kind = BurstKind.media then decide (u (base + 7) < 0.35)
      else false }

/-- `makeParticles(kind, x, y)`: `count` particles pushed in loop order. -/
noncomputable def makeParticles (kind : BurstKind) (x y : ℝ)
    (u : ℕ → ℝ) : List Particle :=
  (List.range (count kind)).map fun i => mkParticle kind x y u (i * drawsPer kind)

/-- `const g = kind === "game" ? 520 : 420;` in `tick`. -/
noncomputable def gravity (kind : BurstKind) : ℝ :=
  if kind = BurstKind.game then 520 else 420

/-- `const drag = kind === "game" ? 0.86 : 0.88;` in `tick`. -/
noncomputable def dragOf (kind : BurstKind) : ℝ :=
  if kind = BurstKind.game then 0.86 else 0.88

/-- The fade rate `kind === "game" ? 1.35 : 1.2` in `tick`. -/
noncomputable def fadeOf (kind : BurstKind) : ℝ :=
  if kind = BurstKind.game then 1.35 else 1.2

/-- `const dt = clamp((t - lastTRef.current) / 1000, 0, 0.033);` applied to the
already-divided elapsed seconds. -/
noncomputable def clampDt (raw : ℝ) : ℝ := clamp raw 0 0.033

/-- The physics block of `tick` for one particle: gravity, then drag raised to
`dt * 60`, then position, rotation and fade updates, in source order. -/
noncomputable def stepParticle (kind : BurstKind) (dt : ℝ) (p : Particle) :
    Particle :=
  let vy1 := p.vy + gravity kind * dt
  let vx2 := p.vx * dragOf kind ^ (dt * 60)
  let vy2 := vy1 * dragOf kind ^ (dt * 60)
  { x := p.x + vx2 * dt
    y := p.y + vy2 * dt
    vx := vx2
    vy := vy2
    life := clamp (p.life - dt * fadeOf kind) 0 1
    size := p.size
    rot := p.rot + p.vr * dt
    vr := p.vr
    hollow := p.hollow }

/-- A canvas draw call emitted for one particle by `tick`. -/
inductive DrawOp where
  | fillRect (x y rot alpha size : ℝ)
  | fillCircle (x y radius alpha : ℝ) (color : String)
  | strokeCircle (x y radius alpha : ℝ) (color : String) (width : ℝ)

/-- Whether the draw call paints a solid (filled) shape. -/
def DrawOp.filled : DrawOp → Bool
  | DrawOp.fillRect _ _ _ _ _ => true
  | DrawOp.fillCircle _ _ _ _ _ => true
  | DrawOp.strokeCircle _ _ _ _ _ _ => false

/-- The stroke line width of the draw call, when it strokes. -/
noncomputable def DrawOp.strokeWidth : DrawOp → Option ℝ
  | DrawOp.strokeCircle _ _ _ _ _ w => some w
  | _ => none

/-- The `globalAlpha` the draw call uses. -/
noncomputable def DrawOp.alpha : DrawOp → ℝ
  | DrawOp.fillRect _ _ _ a _ => a
  | DrawOp.fillCircle _ _ _ a _ => a
  | DrawOp.strokeCircle _ _ _ a _ _ => a

/-- The draw part of the `tick` loop body for one already-stepped particle:
`if (a <= 0) continue;` then the game square or the media circle, with `r` the
per-frame `Math.random()` used for the hot/cool choice. -/
noncomputable def drawParticle (kind : BurstKind) (r : ℝ) (p : Particle) :
    Option DrawOp :=
  if p.life ≤ 0 then Option.none
  else if kind = BurstKind.game then
    some (DrawOp.fillRect p.x p.y p.rot p.life p.size)
  else
    let isHot := r < 0.5
    let fill := if isHot then "#d10b66" else "#ff5aa5"
    let stroke := if isHot then "#ff5aa5" else "#d10b66"
    if p.hollow then
      some (DrawOp.strokeCircle p.x p.y (p.size / 2) p.life stroke 2)
    else
      some (DrawOp.fillCircle p.x p.y (p.size / 2) p.life fill)

/-- The particle list after one `tick`: every particle stepped, then
`particlesRef.current = particlesRef.current.filter((p) => p.life > 0)`. -/
noncomputable def stepBurst (kind : BurstKind) (dt : ℝ)
    (ps : List Particle) : List Particle :=
  (ps.map (stepParticle kind dt)).filter fun p => decide (0 < p.life)

/-- The draw calls one `tick` emits, in particle order; `hotU i` is the
per-frame `Math.random()` for the hot/cool choice of particle `i`. -/
noncomputable def frameDraws (kind : BurstKind) (dt : ℝ) (hotU : ℕ → ℝ)
    (ps : List Particle) : List DrawOp :=
  ((ps.map (stepParticle kind dt)).enum).filterMap fun ip =>
    drawParticle kind (hotU ip.1) ip.2

/-- A particle after a sequence of frames with the given per-frame `dt`s. -/
noncomputable def evolve (kind : BurstKind) (dts : List ℝ) (p : Particle) :
    Particle :=
  dts.foldl (fun q dt => stepParticle kind dt q) p

/-- C1: one `"game"` step with `dt = 1/60` on a particle with velocity
`(200, -300)` and full life adds gravity to `vy` first, then multiplies both
components by `0.86 ^ 1 = 0.86`, advances the position by the post-drag
velocity times `dt`, and lowers life from `1` to `0.9775`. -/
theorem game_step_one_frame (s rot vr : ℝ) (h : Bool) :
    stepParticle BurstKind.game (1 / 60)
        (Particle.mk 100 100 200 (-300) 1 s rot vr h) =
      Particle.mk (100 + 200 * 0.86 * (1 / 60))
        (100 + (-300 + 520 * (1 / 60)) * 0.86 * (1 / 60))
        (200 * 0.86) ((-300 + 520 * (1 / 60)) * 0.86) 0.9775 s
        (rot + vr * (1 / 60)) vr h := by
  have hpow : ((0.86 : ℝ)) ^ ((1 / 60 : ℝ) * 60) = 0.86 := by
    rw [show ((1 / 60 : ℝ) * 60) = 1 by norm_num, Real.rpow_one]
  ext <;>
    simp only [stepParticle, gravity, dragOf, fadeOf, clamp, if_pos rfl,
      hpow] <;>
    norm_num [min_def, max_def]

/-- The fade rate of every kind is positive. -/
theorem fadeOf_pos (kind : BurstKind) : 0 < fadeOf kind := by
  unfold fadeOf; split <;> norm_num

/-- C2: one step with elapsed `dt ≥ 0` maps a life in `[0,1]` to
`clamp (life - fade * dt) 0 1`, which stays in `[0,1]` and never exceeds the
previous life. -/
theorem step_life_monotone (kind : BurstKind) (dt : ℝ) (p : Particle)
    (h0 : 0 ≤ p.life) (_h1 : p.life ≤ 1) (hdt : 0 ≤ dt) :
    (stepParticle kind dt p).life = clamp (p.life - dt * fadeOf kind) 0 1 ∧
    0 ≤ (stepParticle kind dt p).life ∧
    (stepParticle kind dt p).life ≤ 1 ∧
    (stepParticle kind dt p).life ≤ p.life := by
  have hfade : 0 ≤ dt * fadeOf kind :=
    mul_nonneg hdt (le_of_lt (fadeOf_pos kind))
  refine ⟨rfl, le_max_left _ _, ?_, ?_⟩
  · exact max_le (by norm_num) (min_le_left _ _)
  · exact max_le h0 (le_trans (min_le_right _ _) (by linarith))

/-- Witness for `step_life_monotone` at a concrete particle and step. -/
theorem step_life_monotone_witness :
    (0 : ℝ) ≤ (Particle.mk 0 0 0 0 1 4 0 0 false).life ∧
    (Particle.mk 0 0 0 0 1 4 0 0 false).life ≤ 1 ∧
    (0 : ℝ) ≤ 1 / 60 ∧
    ((stepParticle BurstKind.game (1 / 60) (Particle.mk 0 0 0 0 1 4 0 0 false)).life =
      clamp ((Particle.mk 0 0 0 0 1 4 0 0 false).life -
        (1 / 60) * fadeOf BurstKind.game) 0 1 ∧
    0 ≤ (stepParticle BurstKind.game (1 / 60) (Particle.mk 0 0 0 0 1 4 0 0 false)).life ∧
    (stepParticle BurstKind.game (1 / 60) (Particle.mk 0 0 0 0 1 4 0 0 false)).life ≤ 1 ∧
    (stepParticle BurstKind.game (1 / 60) (Particle.mk 0 0 0 0 1 4 0 0 false)).life ≤
      (Particle.mk 0 0 0 0 1 4 0 0 false).life) :=
  ⟨by norm_num, by norm_num, by norm_num,
    step_life_monotone BurstKind.game (1 / 60) (Particle.mk 0 0 0 0 1 4 0 0 false)
      (by norm_num) (by norm_num) (by norm_num)⟩

/-- C5 counterexample: `makeParticles` does not fail on the unrecognized kind
`"none"`; it returns 45 particles (the media-count branch of the ternary). -/
theorem makeParticles_none_no_failure :
    (makeParticles BurstKind.none 0 0 fun _ => 0).length = 45 := by
  simp [makeParticles, count]

/-- C5 amended: `makeParticles` is total on the closed `BurstKind` union and
never raises: the `"game"` kind yields 55 particles and every other kind,
including the unrecognized `"none"`, silently yields 45. -/
theorem makeParticles_total (kind : BurstKind) (x y : ℝ) (u : ℕ → ℝ) :
    (makeParticles kind x y u).length =
      if kind = BurstKind.game then 55 else 45 := by
  simp [makeParticles, count]

/-- C10: every particle of a burst spawns exactly at the supplied origin. -/
theorem burst_spawns_at_origin (kind : BurstKind) (x y : ℝ) (u : ℕ → ℝ) :
    (makeParticles kind x y u).map (fun p => (p.x, p.y)) =
      List.replicate (count kind) (x, y) := by
  rw [List.eq_replicate_iff]
  constructor
  · simp [makeParticles]
  · intro q hq
    simp only [makeParticles, List.map_map, List.mem_map,
      Function.comp] at hq
    obtain ⟨i, _, rfl⟩ := hq
    rfl

/-- C8: the per-frame step leaves size, the hollow shape flag and the angular
velocity of a particle unchanged. -/
theorem step_preserves_spawn_fields (kind : BurstKind) (dt : ℝ) (p : Particle) :
    (stepParticle kind dt p).size = p.size ∧
    (stepParticle kind dt p).hollow = p.hollow ∧
    (stepParticle kind dt p).vr = p.vr :=
  ⟨rfl, rfl, rfl⟩

/-- C6: a particle is drawn exactly when its post-update life is positive, the
burst after a step is exactly the stepped particles with positive life, and
the burst never grows. -/
theorem tick_culls_dead (kind : BurstKind) (dt : ℝ) (ps : List Particle) :
    (∀ (r : ℝ) (p : Particle),
      (drawParticle kind r p).isSome = true ↔ 0 < p.life) ∧
    (∀ q : Particle, q ∈ stepBurst kind dt ps ↔
      q ∈ ps.map (stepParticle kind dt) ∧ 0 < q.life) ∧
    (stepBurst kind dt ps).length ≤ ps.length := by
  refine ⟨?_, ?_, ?_⟩
  · intro r p
    unfold drawParticle
    split_ifs with hle hg hh <;> simp_all
  · intro q
    simp [stepBurst, List.mem_filter]
  · calc (stepBurst kind dt ps).length
        ≤ (ps.map (stepParticle kind dt)).length :=
          List.length_filter_le _ _
      _ = ps.length := List.length_map _ _

/-- Lower bound of `rand`: with `0 ≤ u` and `lo ≤ hi` the result is at least
`lo`. -/
theorem rand_lb (u lo hi : ℝ) (hu : 0 ≤ u) (hlh : lo ≤ hi) :
    lo ≤ rand u lo hi := by
  unfold rand; nlinarith

/-- Upper bound of `rand`: with `0 ≤ u < 1` and `lo ≤ hi` the result is at
most `hi`. -/
theorem rand_ub (u lo hi : ℝ) (_hu0 : 0 ≤ u) (hu1 : u < 1) (hlh : lo ≤ hi) :
    rand u lo hi ≤ hi := by
  unfold rand; nlinarith

/-- Strict upper bound of `rand` on a nondegenerate interval. -/
theorem rand_ub_lt (u lo hi : ℝ) (hu1 : u < 1) (hlh : lo < hi) :
    rand u lo hi < hi := by
  unfold rand; nlinarith

/-- C3: `makeParticles` yields 55 particles for `"game"` and 45 for
`"media"`, and when every `Math.random()` value lies in `[0,1)` each spawned
particle has life 1, size in the style range, angular velocity in `[-6,6]`
and rotation in `[0, 2π)`. -/
theorem burst_spawn_invariants (kind : BurstKind) (x y : ℝ) (u : ℕ → ℝ)
    (hu : ∀ n, 0 ≤ u n ∧ u n < 1) :
    (makeParticles BurstKind.game x y u).length = 55 ∧
    (makeParticles BurstKind.media x y u).length = 45 ∧
    ∀ p ∈ makeParticles kind x y u,
      p.life = 1 ∧
      -6 ≤ p.vr ∧ p.vr ≤ 6 ∧
      0 ≤ p.rot ∧ p.rot < Real.pi * 2 ∧
      (kind = BurstKind.game → 4 ≤ p.size ∧ p.size ≤ 10) ∧
      (kind = BurstKind.media → 3 ≤ p.size ∧ p.size ≤ 9) := by
  refine ⟨by simp [makeParticles, count], by simp [makeParticles, count], ?_⟩
  intro p hp
  simp only [makeParticles, List.mem_map, List.mem_range] at hp
  obtain ⟨i, -, rfl⟩ := hp
  have hpi := Real.pi_pos
  simp only [mkParticle]
  refine ⟨trivial, rand_lb _ _ _ (hu _).1 (by norm_num),
    rand_ub _ _ _ (hu _).1 (hu _).2 (by norm_num),
    rand_lb _ _ _ (hu _).1 (by positivity),
    rand_ub_lt _ _ _ (hu _).2 (by positivity), ?_, ?_⟩
  · intro hk
    subst hk
    rw [if_pos rfl]
    exact ⟨rand_lb _ _ _ (hu _).1 (by norm_num),
      rand_ub _ _ _ (hu _).1 (hu _).2 (by norm_num)⟩
  · intro hk
    subst hk
    rw [if_neg (by decide)]
    exact ⟨rand_lb _ _ _ (hu _).1 (by norm_num),
      rand_ub _ _ _ (hu _).1 (hu _).2 (by norm_num)⟩

/-- Witness for `burst_spawn_invariants` with the constant-zero random
stream. -/
theorem burst_spawn_invariants_witness :
    (∀ n : ℕ, 0 ≤ (fun _ : ℕ => (0 : ℝ)) n ∧ (fun _ : ℕ => (0 : ℝ)) n < 1) ∧
    ((makeParticles BurstKind.game 0 0 (fun _ => 0)).length = 55 ∧
     (makeParticles BurstKind.media 0 0 (fun _ => 0)).length = 45 ∧
     ∀ p ∈ makeParticles BurstKind.game 0 0 (fun _ => (0 : ℝ)),
       p.life = 1 ∧
       -6 ≤ p.vr ∧ p.vr ≤ 6 ∧
       0 ≤ p.rot ∧ p.rot < Real.pi * 2 ∧
       (BurstKind.game = BurstKind.game → 4 ≤ p.size ∧ p.size ≤ 10) ∧
       (BurstKind.game = BurstKind.media → 3 ≤ p.size ∧ p.size ≤ 9)) :=
  ⟨fun n => by norm_num,
    burst_spawn_invariants BurstKind.game 0 0 (fun _ => 0)
      (fun n => by norm_num)⟩

/-- One step preserves the hollow flag. -/
theorem step_hollow (kind : BurstKind) (dt : ℝ) (p : Particle) :
    (stepParticle kind dt p).hollow = p.hollow := rfl

/-- Any sequence of steps preserves the hollow flag. -/
theorem evolve_hollow (kind : BurstKind) (dts : List ℝ) (p : Particle) :
    (evolve kind dts p).hollow = p.hollow := by
  induction dts generalizing p with
  | nil => rfl
  | cons d ds ih =>
      have hstep : evolve kind (d :: ds) p =
          evolve kind ds (stepParticle kind d p) := rfl
      rw [hstep, ih]
      exact step_hollow kind d p

/-- Evaluation of the game draw branch on a live particle. -/
theorem drawParticle_game (r : ℝ) (q : Particle) (hl : ¬(q.life ≤ 0)) :
    drawParticle BurstKind.game r q =
      some (DrawOp.fillRect q.x q.y q.rot q.life q.size) := by
  unfold drawParticle
  rw [if_neg hl, if_pos rfl]

/-- Evaluation of the non-game draw branch on a live hollow particle. -/
theorem drawParticle_nongame_hollow (kind : BurstKind)
    (hk : ¬(kind = BurstKind.game)) (r : ℝ) (q : Particle)
    (hl : ¬(q.life ≤ 0)) (hq : q.hollow = true) :
    drawParticle kind r q =
      some (DrawOp.strokeCircle q.x q.y (q.size / 2) q.life
        (if r < 0.5 then "#ff5aa5" else "#d10b66") 2) := by
  unfold drawParticle
  rw [if_neg hl, if_neg hk]
  simp only [hq, if_true]

/-- Evaluation of the non-game draw branch on a live solid particle. -/
theorem drawParticle_nongame_solid (kind : BurstKind)
    (hk : ¬(kind = BurstKind.game)) (r : ℝ) (q : Particle)
    (hl : ¬(q.life ≤ 0)) (hq : q.hollow = false) :
    drawParticle kind r q =
      some (DrawOp.fillCircle q.x q.y (q.size / 2) q.life
        (if r < 0.5 then "#d10b66" else "#ff5aa5")) := by
  unfold drawParticle
  rw [if_neg hl, if_neg hk]
  simp [hq]

/-- Shape rule of the media draw branch: a hollow particle is stroked with
width 2 and never filled; a non-hollow particle is filled solid. -/
theorem drawParticle_media_shape (r : ℝ) (q : Particle) (op : DrawOp)
    (hop : drawParticle BurstKind.media r q = some op) :
    op.filled = !q.hollow ∧ (q.hollow = true → op.strokeWidth = some 2) := by
  by_cases hl : q.life ≤ 0
  · simp [drawParticle, hl] at hop
  · cases hq : q.hollow with
    | false =>
        simp [drawParticle, hl, hq] at hop
        subst hop
        simp [DrawOp.filled, hq]
    | true =>
        simp [drawParticle, hl, hq] at hop
        subst hop
        simp [DrawOp.filled, DrawOp.strokeWidth, hq]

/-- C4: across every frame of its life and every hot/cool draw, a hollow
media particle is only ever stroked (width 2), never filled; a non-hollow
media particle is always filled solid. -/
theorem media_hollow_never_filled (dts : List ℝ) (r : ℝ) (p : Particle)
    (op : DrawOp)
    (hop : drawParticle BurstKind.media r (evolve BurstKind.media dts p) =
      some op) :
    op.filled = !p.hollow ∧ (p.hollow = true → op.strokeWidth = some 2) := by
  have h := drawParticle_media_shape r _ op hop
  rwa [evolve_hollow] at h

/-- Witness for `media_hollow_never_filled` on a hollow media particle. -/
theorem media_hollow_never_filled_witness :
    drawParticle BurstKind.media 0
        (evolve BurstKind.media [] (Particle.mk 0 0 0 0 1 4 0 0 true)) =
      some (DrawOp.strokeCircle 0 0 (4 / 2) 1 "#ff5aa5" 2) ∧
    ((DrawOp.strokeCircle 0 0 (4 / 2) 1 "#ff5aa5" 2).filled =
        !(Particle.mk 0 0 0 0 1 4 0 0 true).hollow ∧
      ((Particle.mk 0 0 0 0 1 4 0 0 true).hollow = true →
        (DrawOp.strokeCircle 0 0 (4 / 2) 1 "#ff5aa5" 2).strokeWidth =
          some 2)) := by
  have hd : drawParticle BurstKind.media 0
      (evolve BurstKind.media [] (Particle.mk 0 0 0 0 1 4 0 0 true)) =
      some (DrawOp.strokeCircle 0 0 (4 / 2) 1 "#ff5aa5" 2) := by
    have hev : evolve BurstKind.media [] (Particle.mk 0 0 0 0 1 4 0 0 true) =
        Particle.mk 0 0 0 0 1 4 0 0 true := rfl
    rw [hev, drawParticle_nongame_hollow BurstKind.media (by decide) 0
      (Particle.mk 0 0 0 0 1 4 0 0 true) (by norm_num) rfl]
    norm_num
  exact ⟨hd, media_hollow_never_filled [] 0 _ _ hd⟩

/-- C7: the per-frame elapsed time is clamped into `[0, 0.033]`, a step with
clamped `dt = 0` is the identity on a particle whose life is in `[0,1]`, and
a particle of full life is still drawn with opacity 1 after such a step. -/
theorem dt_clamp_and_zero_step (raw : ℝ) (kind : BurstKind) (r : ℝ)
    (p : Particle) :
    (0 ≤ clampDt raw ∧ clampDt raw ≤ 0.033) ∧
    (0 ≤ p.life → p.life ≤ 1 → stepParticle kind 0 p = p) ∧
    (p.life = 1 →
      ∃ op, drawParticle kind r (stepParticle kind 0 p) = some op ∧
        op.alpha = 1) := by
  refine ⟨⟨le_max_left _ _, max_le (by norm_num) (min_le_left _ _)⟩, ?_, ?_⟩
  · intro h0 h1
    ext <;> simp [stepParticle, clamp, Real.rpow_zero]
    rw [min_eq_right h1, max_eq_right h0]
  · intro hl
    have hstep : (stepParticle kind 0 p).life = 1 := by
      norm_num [stepParticle, clamp, hl]
    have hpos : ¬((stepParticle kind 0 p).life ≤ 0) := by
      rw [hstep]; norm_num
    by_cases hk : kind = BurstKind.game
    · subst hk
      exact ⟨_, drawParticle_game r _ hpos, by simp [DrawOp.alpha, hstep]⟩
    · cases hh : (stepParticle kind 0 p).hollow with
      | true =>
          exact ⟨_, drawParticle_nongame_hollow kind hk r _ hpos hh,
            by simp [DrawOp.alpha, hstep]⟩
      | false =>
          exact ⟨_, drawParticle_nongame_solid kind hk r _ hpos hh,
            by simp [DrawOp.alpha, hstep]⟩

/-- Witness for `dt_clamp_and_zero_step` at a concrete particle. -/
theorem dt_clamp_and_zero_step_witness :
    (0 : ℝ) ≤ (Particle.mk 5 6 7 8 1 4 0 0 false).life ∧
    (Particle.mk 5 6 7 8 1 4 0 0 false).life ≤ 1 ∧
    (Particle.mk 5 6 7 8 1 4 0 0 false).life = 1 ∧
    stepParticle BurstKind.game 0 (Particle.mk 5 6 7 8 1 4 0 0 false) =
      Particle.mk 5 6 7 8 1 4 0 0 false ∧
    ∃ op, drawParticle BurstKind.game 0
        (stepParticle BurstKind.game 0 (Particle.mk 5 6 7 8 1 4 0 0 false)) =
        some op ∧ op.alpha = 1 :=
  ⟨by norm_num, by norm_num, rfl,
    (dt_clamp_and_zero_step 1 BurstKind.game 0
      (Particle.mk 5 6 7 8 1 4 0 0 false)).2.1 (by norm_num) (by norm_num),
    (dt_clamp_and_zero_step 1 BurstKind.game 0
      (Particle.mk 5 6 7 8 1 4 0 0 false)).2.2 rfl⟩

end Peakcast
